import Mathlib

/-!
Shallow embedding of the data-ingestion and stream-processing pipeline
(`src/services/data-ingestion/main.py` and `src/services/stream-processing/main.py`).

Numeric payload fields and timestamps are modelled as `Int` (the claims under
study concern field presence, state equality and control flow, not float
arithmetic); sleep durations are modelled as `ℚ` because the code computes
`60 / rate_limit` with true division.  Sink availability is modelled by two
booleans (`pgOk` for the PostgreSQL relational sink, `chOk` for the ClickHouse
time-series sink): a sink write against an unavailable sink raises, which the
embedding represents as an error value (for the relational sink, where the
exception escapes the handler) or as an unchanged state (for the time-series
sink, where `_store_timeseries_data` catches and only logs the exception).
-/

namespace Defimon

/-! ## Ingestion service (`src/services/data-ingestion/main.py`) -/

/-- `DataSource` dataclass: name, endpoint, api_key, rate_limit (requests per
minute), priority (1-5). -/
structure DataSource where
  name : String
  endpoint : String
  api_key : String
  rate_limit : Nat
  priority : Nat
deriving DecidableEq

/-- `_load_data_sources` returns an empty list: every source entry in the
checked-in code is commented out. -/
def loadDataSources : List DataSource := []

/-- The three ingestion worker loops of `DataIngestionService`. -/
inductive WorkerKind
  | subgraph
  | price
  | tvl
deriving DecidableEq

/-- `start_ingestion` assigns a worker coroutine to a source by its name:
"the_graph" gets `_ingest_subgraph_data`, "coingecko" gets
`_ingest_price_data`, "defillama" gets `_ingest_tvl_data`. -/
def workerFor (name : String) : Option WorkerKind :=
  if name = "the_graph" then some WorkerKind.subgraph
  else if name = "coingecko" then some WorkerKind.price
  else if name = "defillama" then some WorkerKind.tvl
  else none

/-- The Kafka topic each worker publishes to. -/
def topicOf : WorkerKind → String
  | WorkerKind.subgraph => "subgraph_data"
  | WorkerKind.price => "price_data"
  | WorkerKind.tvl => "tvl_data"

/-- The sleep at the end of a successful iteration of each worker loop:
`_ingest_subgraph_data` sleeps `60 / source.rate_limit`, `_ingest_price_data`
sleeps a fixed 30 seconds, `_ingest_tvl_data` sleeps a fixed 300 seconds. -/
def successSleep (k : WorkerKind) (s : DataSource) : ℚ :=
  match k with
  | WorkerKind.subgraph => 60 / (s.rate_limit : ℚ)
  | WorkerKind.price => 30
  | WorkerKind.tvl => 300

/-- The sleep in the `except` branch of every worker loop:
`await asyncio.sleep(60)`, the same for all three workers. -/
def failureSleep : ℚ := 60

/-- A message handed to `KafkaProducer.send`.  The producer's key_serializer
encodes a key when one is given and passes `None` through, so the key is
modelled as `Option String`. -/
structure KafkaMsg (α : Type) where
  topic : String
  key : Option String
  value : α
deriving DecidableEq

/-- `_publish_to_kafka(topic, data)` calls
`self.kafka_producer.send(topic, value=data)`: no `key` argument is passed,
so every message is produced with a `None` key. -/
def publishToKafka (topic : String) (value : α) : KafkaMsg α :=
  { topic := topic, key := none, value := value }

/-- Observable per-worker state: the two Prometheus counters
(`INGESTION_REQUESTS`, `INGESTION_ERRORS`, restricted to this worker's label)
and the sequence of messages published so far. -/
structure WorkerState (α : Type) where
  requests : Nat
  errors : Nat
  published : List (KafkaMsg α)
deriving DecidableEq

/-- Outcome of one iteration's fetch/publish attempt, decided by the external
world (network, broker).  `ok vals` is a fully successful iteration that
published `vals`; `fail sent` is an iteration that raised after having already
published `sent` (possibly empty). -/
inductive FetchOutcome (α : Type)
  | ok (vals : List α)
  | fail (sent : List α)
deriving DecidableEq

/-- One iteration of a worker's `while True` body.  On success the body
publishes its envelopes, increments `INGESTION_REQUESTS` and sleeps the
worker's success sleep; on an exception the `except` branch increments
`INGESTION_ERRORS` and sleeps a fixed 60 seconds.  The returned `ℚ` is the
sleep duration before the next iteration. -/
def workerStep (k : WorkerKind) (s : DataSource) (st : WorkerState α) :
    FetchOutcome α → WorkerState α × ℚ
  | FetchOutcome.ok vals =>
      ({ st with
          requests := st.requests + 1,
          published := st.published ++ vals.map (publishToKafka (topicOf k)) },
        successSleep k s)
  | FetchOutcome.fail sent =>
      ({ st with
          errors := st.errors + 1,
          published := st.published ++ sent.map (publishToKafka (topicOf k)) },
        failureSleep)

/-- The worker loop run over a finite prefix of iteration outcomes.  The loop
body is total: every outcome, failures included, yields a next state, so the
loop continues past any transient failure. -/
def runWorker (k : WorkerKind) (s : DataSource) :
    WorkerState α → List (FetchOutcome α) → WorkerState α
  | st, [] => st
  | st, o :: os => runWorker k s (workerStep k s st o).1 os

/-! ## Stream-processing service (`src/services/stream-processing/main.py`) -/

/-- One token's entry in a CoinGecko `price_data` payload.  The handler reads
`metrics['usd']` by subscript and the other three fields with `.get()`, so
all four are modelled as optional here; absence of `usd` is the KeyError
case. -/
structure PriceMetrics where
  usd : Option Int
  usd_market_cap : Option Int
  usd_24h_vol : Option Int
  usd_24h_change : Option Int
deriving DecidableEq

/-- A DeFiLlama `tvl_data` payload; the handler reads all three fields with
`.get(field, 0)`. -/
structure TvlPayload where
  tvl : Option Int
  volume24h : Option Int
  fees24h : Option Int
deriving DecidableEq

/-- One pool record of a Uniswap V3 subgraph response, with the fields
`_process_uniswap_data` reads by subscript. -/
structure Pool where
  id : String
  token0_symbol : String
  token1_symbol : String
  totalValueLockedUSD : Int
  volumeUSD : Int
  feeTier : Int
deriving DecidableEq

/-- The source-specific `data` member of a consumed Kafka message, by topic
shape.  For `subgraph_data` the nested `data.data.pools` list may be absent
(`'pools' not in pools_data.get('data', {})`), hence the `Option`. -/
inductive Payload
  | subgraph (protocol : String) (pools : Option (List Pool))
  | price (entries : List (String × PriceMetrics))
  | tvl (protocol : String) (v : TvlPayload)

/-- A consumed Kafka message: its topic, the parsed `timestamp` member and the
source-specific payload. -/
structure Envelope where
  topic : String
  timestamp : Int
  payload : Payload

/-- A row of the `token_prices` table (the key `(token_id, timestamp)` is held
by the table, the row holds the four metric columns). -/
structure TokenPriceRow where
  price_usd : Int
  market_cap_usd : Option Int
  volume_24h_usd : Option Int
  price_change_24h : Option Int
deriving DecidableEq

/-- A row of the `uniswap_pools` table (the key `(pool_id, timestamp)` is held
by the table). -/
structure UniswapPoolRow where
  pair_name : String
  token0_symbol : String
  token1_symbol : String
  tvl_usd : Int
  volume_24h_usd : Int
  fee_tier : Int
deriving DecidableEq

/-- A scalar cell of a ClickHouse row as built by `_store_timeseries_data`
(a datetime, a text label or a numeric metric). -/
inductive CHVal
  | time (t : Int)
  | str (s : String)
  | num (v : Int)
deriving DecidableEq

/-- The `token_prices` relational table, keyed by `(token_id, timestamp)` with
a uniqueness constraint on the key, in insertion order. -/
abbrev TPTable := List ((String × Int) × TokenPriceRow)

/-- The `uniswap_pools` relational table, keyed by `(pool_id, timestamp)`. -/
abbrev UPTable := List ((String × Int) × UniswapPoolRow)

/-- The observable state of the two sinks: the two PostgreSQL tables and the
append-only ClickHouse store (each entry a table name and a row). -/
structure SinkState where
  token_prices : TPTable
  uniswap_pools : UPTable
  timeseries : List (String × List CHVal)
deriving DecidableEq

/-- Lookup by key in a relational table. -/
def lookupTab : List ((String × Int) × β) → (String × Int) → Option β
  | [], _ => none
  | (k0, v) :: rest, k => if k0 = k then some v else lookupTab rest k

/-- The `DO UPDATE SET` clause of the `token_prices` insert: on conflict all
four metric columns are overwritten with the excluded row's values. -/
def updTokenPrice (old new : TokenPriceRow) : TokenPriceRow :=
  { old with
      price_usd := new.price_usd,
      market_cap_usd := new.market_cap_usd,
      volume_24h_usd := new.volume_24h_usd,
      price_change_24h := new.price_change_24h }

/-- `INSERT INTO token_prices ... ON CONFLICT (token_id, timestamp) DO UPDATE
SET price_usd, market_cap_usd, volume_24h_usd, price_change_24h`. -/
def upsertTokenPrice : TPTable → (String × Int) → TokenPriceRow → TPTable
  | [], k, r => [(k, r)]
  | (k0, v) :: rest, k, r =>
      if k0 = k then (k0, updTokenPrice v r) :: rest
      else (k0, v) :: upsertTokenPrice rest k r

/-- The `DO UPDATE SET` clause of the `uniswap_pools` insert: on conflict only
`tvl_usd` and `volume_24h_usd` are overwritten; `pair_name`, the token symbols
and `fee_tier` keep the stored row's values. -/
def updUniswapPool (old new : UniswapPoolRow) : UniswapPoolRow :=
  { old with
      tvl_usd := new.tvl_usd,
      volume_24h_usd := new.volume_24h_usd }

/-- `INSERT INTO uniswap_pools ... ON CONFLICT (pool_id, timestamp) DO UPDATE
SET tvl_usd, volume_24h_usd`. -/
def upsertUniswapPool : UPTable → (String × Int) → UniswapPoolRow → UPTable
  | [], k, r => [(k, r)]
  | (k0, v) :: rest, k, r =>
      if k0 = k then (k0, updUniswapPool v r) :: rest
      else (k0, v) :: upsertUniswapPool rest k r

/-- `_store_timeseries_data(table, data)`: flattens the dict's values into one
row (insertion order) and inserts it into ClickHouse inside a
`try/except` that catches every exception and only prints it, so an
unavailable time-series sink leaves the state unchanged and never raises. -/
def storeTimeseriesData (chOk : Bool) (table : String) (row : List CHVal)
    (st : SinkState) : SinkState :=
  if chOk then { st with timeseries := st.timeseries ++ [(table, row)] } else st

/-- Errors a handler can raise into the dispatch loop. -/
inductive HErr
  | keyError (k : String)
  | sinkUnavailable
deriving DecidableEq

/-- The `token_prices` row built for one token:
`metrics['usd']` (already known present here), and the three `.get()` fields
passed through as nullable. -/
def priceRowOf (m : PriceMetrics) (p : Int) : TokenPriceRow :=
  { price_usd := p,
    market_cap_usd := m.usd_market_cap,
    volume_24h_usd := m.usd_24h_vol,
    price_change_24h := m.usd_24h_change }

/-- The `for token_id, metrics in price_data.items()` loop of
`_process_price_data`.  Each step reads `metrics['usd']` by subscript — a
missing `usd` raises KeyError, aborting the loop with the rows upserted so far
kept (each `conn.execute` commits on its own) — then upserts one row. -/
def goPrice (ts : Int) :
    List (String × PriceMetrics) → SinkState → SinkState × Option HErr
  | [], st => (st, none)
  | (tid, m) :: rest, st =>
      match m.usd with
      | none => (st, some (HErr.keyError "usd"))
      | some p =>
          goPrice ts rest
            { st with
                token_prices := upsertTokenPrice st.token_prices (tid, ts) (priceRowOf m p) }

/-- `_process_price_data`: acquire a PostgreSQL connection (raising if the
relational sink is down), then upsert one `token_prices` row per token. -/
def processPriceData (pgOk : Bool) (ts : Int)
    (entries : List (String × PriceMetrics)) (st : SinkState) :
    SinkState × Option HErr :=
  if pgOk then goPrice ts entries st else (st, some HErr.sinkUnavailable)

/-- `pair_name = f"{token0_symbol}/{token1_symbol}"`. -/
def pairName (p : Pool) : String :=
  p.token0_symbol ++ "/" ++ p.token1_symbol

/-- The `uniswap_pools` row built from one pool record. -/
def poolRowOf (p : Pool) : UniswapPoolRow :=
  { pair_name := pairName p,
    token0_symbol := p.token0_symbol,
    token1_symbol := p.token1_symbol,
    tvl_usd := p.totalValueLockedUSD,
    volume_24h_usd := p.volumeUSD,
    fee_tier := p.feeTier }

/-- The `pool_metrics` ClickHouse row built from one pool record, in the
insertion order of the dict passed to `_store_timeseries_data`. -/
def poolCHRow (ts : Int) (p : Pool) : List CHVal :=
  [CHVal.time ts, CHVal.str "uniswap_v3", CHVal.str p.id, CHVal.str (pairName p),
   CHVal.num p.totalValueLockedUSD, CHVal.num p.volumeUSD, CHVal.num p.feeTier]

/-- The `for pool in pools_data['data']['pools']` loop of
`_process_uniswap_data`: per pool, upsert one `uniswap_pools` row and append
one `pool_metrics` time-series point. -/
def goPools (chOk : Bool) (ts : Int) : List Pool → SinkState → SinkState
  | [], st => st
  | p :: rest, st =>
      goPools chOk ts rest
        (storeTimeseriesData chOk "pool_metrics" (poolCHRow ts p)
          { st with
              uniswap_pools := upsertUniswapPool st.uniswap_pools (p.id, ts) (poolRowOf p) })

/-- `_process_uniswap_data`: return early when `data.pools` is absent,
otherwise acquire a PostgreSQL connection (raising if the relational sink is
down) and process each pool. -/
def processUniswapData (pgOk chOk : Bool) (ts : Int)
    (pools : Option (List Pool)) (st : SinkState) : SinkState × Option HErr :=
  match pools with
  | none => (st, none)
  | some ps =>
      if pgOk then (goPools chOk ts ps st, none) else (st, some HErr.sinkUnavailable)

/-- `_process_subgraph_data`: only the protocol "uniswap_v3" is processed;
other protocols fall through without effect. -/
def processSubgraphData (pgOk chOk : Bool) (protocol : String) (ts : Int)
    (pools : Option (List Pool)) (st : SinkState) : SinkState × Option HErr :=
  if protocol = "uniswap_v3" then processUniswapData pgOk chOk ts pools st
  else (st, none)

/-- `_process_tvl_data`: build the `protocol_metrics` row with
`tvl_data.get('tvl', 0)`, `.get('volume24h', 0)`, `.get('fees24h', 0)` and
append it via `_store_timeseries_data` (which never raises). -/
def processTvlData (chOk : Bool) (protocol : String) (ts : Int)
    (v : TvlPayload) (st : SinkState) : SinkState :=
  storeTimeseriesData chOk "protocol_metrics"
    [CHVal.time ts, CHVal.str protocol,
     CHVal.num (v.tvl.getD 0), CHVal.num (v.volume24h.getD 0),
     CHVal.num (v.fees24h.getD 0)] st

/-- Connectivity of the two sinks as seen by one handler invocation. -/
structure Conn where
  pgOk : Bool
  chOk : Bool
deriving DecidableEq

/-- `self.processors[message.topic](message.value)`: look up the handler
registered for a topic and run it.  An unregistered topic raises KeyError on
the dict lookup; a payload whose shape does not match its handler raises a
KeyError inside the handler; either way the exception reaches the dispatch
loop's `except` branch. -/
def runHandler (c : Conn) (st : SinkState) (e : Envelope) : SinkState × Option HErr :=
  if e.topic = "subgraph_data" then
    match e.payload with
    | Payload.subgraph proto pools => processSubgraphData c.pgOk c.chOk proto e.timestamp pools st
    | _ => (st, some (HErr.keyError "data"))
  else if e.topic = "price_data" then
    match e.payload with
    | Payload.price entries => processPriceData c.pgOk e.timestamp entries st
    | _ => (st, some (HErr.keyError "data"))
  else if e.topic = "tvl_data" then
    match e.payload with
    | Payload.tvl proto v => (processTvlData c.chOk proto e.timestamp v st, none)
    | _ => (st, some (HErr.keyError "data"))
  else (st, some (HErr.keyError e.topic))

/-- Observable state of one `StreamProcessor` instance: the sinks and the two
topic-labelled Prometheus counters `PROCESSED_MESSAGES` and
`PROCESSING_ERRORS`. -/
structure ProcState where
  sinks : SinkState
  processedMessages : List (String × Nat)
  processingErrors : List (String × Nat)
deriving DecidableEq

/-- `Counter.labels(topic=t).inc()` on a labelled counter family. -/
def bump : List (String × Nat) → String → List (String × Nat)
  | [], t => [(t, 1)]
  | (t0, n) :: rest, t =>
      if t0 = t then (t0, n + 1) :: rest else (t0, n) :: bump rest t

/-- The body of the `for message in self.consumer` loop of
`start_processing`: run the topic's handler inside `try`; on normal return
increment `PROCESSED_MESSAGES`, on any exception increment
`PROCESSING_ERRORS` and print — in both cases control reaches the next
message.  State written by the handler before an exception persists. -/
def dispatchStep (c : Conn) (st : ProcState) (e : Envelope) : ProcState :=
  let r := runHandler c st.sinks e
  match r.2 with
  | none =>
      { sinks := r.1,
        processedMessages := bump st.processedMessages e.topic,
        processingErrors := st.processingErrors }
  | some _ =>
      { sinks := r.1,
        processedMessages := st.processedMessages,
        processingErrors := bump st.processingErrors e.topic }

/-- The dispatch loop run over a finite prefix of the consumed stream. -/
def runLoop (c : Conn) : ProcState → List Envelope → ProcState
  | st, [] => st
  | st, m :: ms => runLoop c (dispatchStep c st m) ms

/-- Delivering the same Envelope `n` times in a row to the dispatch loop. -/
def deliverN (c : Conn) (e : Envelope) : Nat → ProcState → ProcState
  | 0, st => st
  | n + 1, st => deliverN c e n (dispatchStep c st e)

/-- Both sinks empty. -/
def emptySinks : SinkState := { token_prices := [], uniswap_pools := [], timeseries := [] }

/-- A freshly started processor: empty sinks, zeroed counters. -/
def initState : ProcState :=
  { sinks := emptySinks, processedMessages := [], processingErrors := [] }

/-- Entity keys occurring in a payload are pairwise distinct.  For a price
payload this holds by construction in the source (the tokens are the keys of
a JSON object); for a subgraph payload the pools are distinct subgraph
entities. -/
def payloadKeysNodup : Payload → Prop
  | Payload.subgraph _ pools =>
      match pools with
      | some ps => (ps.map Pool.id).Nodup
      | none => True
  | Payload.price entries => (entries.map Prod.fst).Nodup
  | Payload.tvl _ _ => True

instance : DecidablePred payloadKeysNodup := by
  intro p
  unfold payloadKeysNodup
  match p with
  | Payload.subgraph _ pools =>
      match pools with
      | some ps => exact List.nodupDecidable _
      | none => exact inferInstanceAs (Decidable True)
  | Payload.price entries => exact List.nodupDecidable _
  | Payload.tvl _ _ => exact inferInstanceAs (Decidable True)

/-- The effect of `_process_price_data`'s token loop on the `token_prices`
table alone (the loop touches no other component of the relational sink). -/
def goPriceTable (ts : Int) : List (String × PriceMetrics) → TPTable → TPTable
  | [], t => t
  | (tid, m) :: rest, t =>
      match m.usd with
      | none => t
      | some p => goPriceTable ts rest (upsertTokenPrice t (tid, ts) (priceRowOf m p))

/-- The effect of `_process_uniswap_data`'s pool loop on the `uniswap_pools`
table alone. -/
def goPoolsTable (ts : Int) : List Pool → UPTable → UPTable
  | [], t => t
  | p :: rest, t => goPoolsTable ts rest (upsertUniswapPool t (p.id, ts) (poolRowOf p))

/-- The effect of dispatching one Envelope on the `token_prices` table: only a
`price_data` message with matching payload and a reachable relational sink
changes it. -/
def relTP (c : Conn) (e : Envelope) (t : TPTable) : TPTable :=
  if e.topic = "price_data" then
    match e.payload with
    | Payload.price entries => if c.pgOk then goPriceTable e.timestamp entries t else t
    | _ => t
  else t

/-- The effect of dispatching one Envelope on the `uniswap_pools` table: only
a `subgraph_data` message for protocol "uniswap_v3" with a present pools list
and a reachable relational sink changes it. -/
def relUP (c : Conn) (e : Envelope) (t : UPTable) : UPTable :=
  if e.topic = "subgraph_data" then
    match e.payload with
    | Payload.subgraph proto pools =>
        if proto = "uniswap_v3" then
          match pools with
          | some ps => if c.pgOk then goPoolsTable e.timestamp ps t else t
          | none => t
        else t
    | _ => t
  else t

/-! ### Concrete sample values used by counterexamples and witnesses -/

/-- Both sinks reachable. -/
def cBoth : Conn := { pgOk := true, chOk := true }

/-- Relational sink unreachable, time-series sink reachable. -/
def cPgDown : Conn := { pgOk := false, chOk := true }

/-- A well-formed `tvl_data` message. -/
def sampleTvlMsg : Envelope :=
  { topic := "tvl_data", timestamp := 0,
    payload := Payload.tvl "aave-v3" { tvl := some 5, volume24h := some 3, fees24h := some 1 } }

/-- A well-formed `price_data` message for two tokens. -/
def samplePriceMsg : Envelope :=
  { topic := "price_data", timestamp := 0,
    payload := Payload.price
      [("bitcoin", { usd := some 65000, usd_market_cap := none, usd_24h_vol := some 7, usd_24h_change := some 1 }),
       ("ethereum", { usd := some 3000, usd_market_cap := some 9, usd_24h_vol := none, usd_24h_change := none })] }

/-- A sample Uniswap pool record. -/
def samplePool : Pool :=
  { id := "0xabc", token0_symbol := "WETH", token1_symbol := "USDC",
    totalValueLockedUSD := 100, volumeUSD := 40, feeTier := 3000 }

/-- The commented-out CoinGecko source descriptor of `_load_data_sources`. -/
def cgSource : DataSource :=
  { name := "coingecko", endpoint := "https://api.coingecko.com/api/v3",
    api_key := "", rate_limit := 50, priority := 2 }

/-! ## Lemmas on the relational tables -/

/-- The `token_prices` conflict update overwrites every metric column, so the
merged row is the excluded row. -/
theorem updTokenPrice_eq (o n : TokenPriceRow) : updTokenPrice o n = n := rfl

/-- After an upsert, the upserted key maps to the upserted row. -/
theorem lookupTab_upsertTP_self (t : TPTable) (k : String × Int) (r : TokenPriceRow) :
    lookupTab (upsertTokenPrice t k r) k = some r := by
  induction t with
  | nil => simp [upsertTokenPrice, lookupTab]
  | cons hd rest ih =>
      obtain ⟨k0, v⟩ := hd
      by_cases h : k0 = k
      · simp [upsertTokenPrice, lookupTab, h, updTokenPrice_eq]
      · simp [upsertTokenPrice, lookupTab, h, ih]

/-- Upserting one key leaves every other key's row unchanged. -/
theorem lookupTab_upsertTP_other (t : TPTable) (k' k : String × Int) (r : TokenPriceRow)
    (h : k' ≠ k) :
    lookupTab (upsertTokenPrice t k' r) k = lookupTab t k := by
  induction t with
  | nil => simp [upsertTokenPrice, lookupTab, h]
  | cons hd rest ih =>
      obtain ⟨k0, v⟩ := hd
      by_cases h0 : k0 = k'
      · subst h0
        simp [upsertTokenPrice, lookupTab, h]
      · simp [upsertTokenPrice, lookupTab, h0, ih]

/-- Upserting a row identical to the stored one is a no-op on the table. -/
theorem upsertTP_id (t : TPTable) (k : String × Int) (r : TokenPriceRow)
    (h : lookupTab t k = some r) :
    upsertTokenPrice t k r = t := by
  induction t with
  | nil => simp [lookupTab] at h
  | cons hd rest ih =>
      obtain ⟨k0, v⟩ := hd
      by_cases h0 : k0 = k
      · simp [lookupTab, h0] at h
        simp [upsertTokenPrice, h0, updTokenPrice_eq, h]
      · simp [lookupTab, h0] at h
        simp [upsertTokenPrice, h0, ih h]

/-- The price loop does not touch keys whose token id is not in the payload. -/
theorem goPriceTable_lookup_of_notMem (ts : Int) (entries : List (String × PriceMetrics))
    (t : TPTable) (tid : String) (h : tid ∉ entries.map Prod.fst) :
    lookupTab (goPriceTable ts entries t) (tid, ts) = lookupTab t (tid, ts) := by
  induction entries generalizing t with
  | nil => simp [goPriceTable]
  | cons hd rest ih =>
      obtain ⟨tid0, m⟩ := hd
      simp only [List.map_cons, List.mem_cons] at h
      push_neg at h
      match hm : m.usd with
      | none => simp [goPriceTable, hm]
      | some p =>
          rw [goPriceTable, hm]
          rw [ih _ h.2, lookupTab_upsertTP_other]
          intro hk
          exact h.1 (congrArg Prod.fst hk).symm

/-- With pairwise-distinct token ids, running the price loop a second time
over the same payload does not change the `token_prices` table. -/
theorem goPriceTable_idem (ts : Int) (entries : List (String × PriceMetrics))
    (t : TPTable) (h : (entries.map Prod.fst).Nodup) :
    goPriceTable ts entries (goPriceTable ts entries t) = goPriceTable ts entries t := by
  induction entries generalizing t with
  | nil => simp [goPriceTable]
  | cons hd rest ih =>
      obtain ⟨tid0, m⟩ := hd
      simp only [List.map_cons, List.nodup_cons] at h
      match hm : m.usd with
      | none => simp [goPriceTable, hm]
      | some p =>
          simp only [goPriceTable, hm]
          have hlk : lookupTab (goPriceTable ts rest (upsertTokenPrice t (tid0, ts) (priceRowOf m p)))
              (tid0, ts) = some (priceRowOf m p) := by
            rw [goPriceTable_lookup_of_notMem ts rest _ tid0 h.1]
            exact lookupTab_upsertTP_self _ _ _
          rw [upsertTP_id _ _ _ hlk]
          exact ih _ h.2

/-- When the upserted key already has a row, the conflict clause merges: only
`tvl_usd` and `volume_24h_usd` take the excluded row's values. -/
theorem lookupTab_upsertUP_update (t : UPTable) (k : String × Int)
    (r o : UniswapPoolRow) (h : lookupTab t k = some o) :
    lookupTab (upsertUniswapPool t k r) k = some (updUniswapPool o r) := by
  induction t with
  | nil => simp [lookupTab] at h
  | cons hd rest ih =>
      obtain ⟨k0, v⟩ := hd
      by_cases h0 : k0 = k
      · simp [lookupTab, h0] at h
        simp [upsertUniswapPool, lookupTab, h0, h]
      · simp [lookupTab, h0] at h
        simp [upsertUniswapPool, lookupTab, h0, ih h]

/-- After an upsert, the upserted key's row carries the upserted metric
values, whether the key was fresh (full insert) or present (conflict
update). -/
theorem lookupTab_upsertUP_self (t : UPTable) (k : String × Int) (r : UniswapPoolRow) :
    ∃ w, lookupTab (upsertUniswapPool t k r) k = some w ∧
      w.tvl_usd = r.tvl_usd ∧ w.volume_24h_usd = r.volume_24h_usd := by
  induction t with
  | nil => exact ⟨r, by simp [upsertUniswapPool, lookupTab], rfl, rfl⟩
  | cons hd rest ih =>
      obtain ⟨k0, v⟩ := hd
      by_cases h0 : k0 = k
      · exact ⟨updUniswapPool v r, by simp [upsertUniswapPool, lookupTab, h0],
          rfl, rfl⟩
      · obtain ⟨w, hw, h1, h2⟩ := ih
        exact ⟨w, by simp [upsertUniswapPool, lookupTab, h0, hw], h1, h2⟩

/-- Upserting one pool key leaves every other key's row unchanged. -/
theorem lookupTab_upsertUP_other (t : UPTable) (k' k : String × Int) (r : UniswapPoolRow)
    (h : k' ≠ k) :
    lookupTab (upsertUniswapPool t k' r) k = lookupTab t k := by
  induction t with
  | nil => simp [upsertUniswapPool, lookupTab, h]
  | cons hd rest ih =>
      obtain ⟨k0, v⟩ := hd
      by_cases h0 : k0 = k'
      · subst h0
        simp [upsertUniswapPool, lookupTab, h]
      · simp [upsertUniswapPool, lookupTab, h0, ih]

/-- An upsert whose metric values already match the stored row is a no-op on
the table (the conflict clause overwrites nothing else). -/
theorem upsertUP_id (t : UPTable) (k : String × Int) (r w : UniswapPoolRow)
    (h : lookupTab t k = some w)
    (h1 : w.tvl_usd = r.tvl_usd) (h2 : w.volume_24h_usd = r.volume_24h_usd) :
    upsertUniswapPool t k r = t := by
  induction t with
  | nil => simp [lookupTab] at h
  | cons hd rest ih =>
      obtain ⟨k0, v⟩ := hd
      by_cases h0 : k0 = k
      · simp [lookupTab, h0] at h
        subst h
        have : updUniswapPool v r = v := by
          cases v
          simp only [updUniswapPool] at h1 h2 ⊢
          simp [← h1, ← h2]
        simp [upsertUniswapPool, h0, this]
      · simp [lookupTab, h0] at h
        simp [upsertUniswapPool, h0, ih h]

/-- The pool loop does not touch keys whose pool id is not in the payload. -/
theorem goPoolsTable_lookup_of_notMem (ts : Int) (ps : List Pool)
    (t : UPTable) (pid : String) (h : pid ∉ ps.map Pool.id) :
    lookupTab (goPoolsTable ts ps t) (pid, ts) = lookupTab t (pid, ts) := by
  induction ps generalizing t with
  | nil => simp [goPoolsTable]
  | cons p rest ih =>
      simp only [List.map_cons, List.mem_cons] at h
      push_neg at h
      rw [goPoolsTable, ih _ h.2, lookupTab_upsertUP_other]
      intro hk
      exact h.1 (congrArg Prod.fst hk).symm

/-- With pairwise-distinct pool ids, running the pool loop a second time over
the same payload does not change the `uniswap_pools` table. -/
theorem goPoolsTable_idem (ts : Int) (ps : List Pool)
    (t : UPTable) (h : (ps.map Pool.id).Nodup) :
    goPoolsTable ts ps (goPoolsTable ts ps t) = goPoolsTable ts ps t := by
  induction ps generalizing t with
  | nil => simp [goPoolsTable]
  | cons p rest ih =>
      simp only [List.map_cons, List.nodup_cons] at h
      simp only [goPoolsTable]
      obtain ⟨w, hw, h1, h2⟩ := lookupTab_upsertUP_self t (p.id, ts) (poolRowOf p)
      have hlk : lookupTab (goPoolsTable ts rest (upsertUniswapPool t (p.id, ts) (poolRowOf p)))
          (p.id, ts) = some w := by
        rw [goPoolsTable_lookup_of_notMem ts rest _ p.id h.1]
        exact hw
      rw [upsertUP_id _ _ _ _ hlk h1 h2]
      exact ih _ h.2

/-! ## Component lemmas: which state a handler touches -/

/-- A time-series insert never changes `token_prices`. -/
theorem storeTs_tp (chOk : Bool) (tbl : String) (row : List CHVal) (st : SinkState) :
    (storeTimeseriesData chOk tbl row st).token_prices = st.token_prices := by
  unfold storeTimeseriesData
  split <;> rfl

/-- A time-series insert never changes `uniswap_pools`. -/
theorem storeTs_up (chOk : Bool) (tbl : String) (row : List CHVal) (st : SinkState) :
    (storeTimeseriesData chOk tbl row st).uniswap_pools = st.uniswap_pools := by
  unfold storeTimeseriesData
  split <;> rfl

/-- The price loop's effect on `token_prices` is `goPriceTable`, also when it
aborts with a KeyError partway (earlier upserts persist). -/
theorem goPrice_tp (ts : Int) (entries : List (String × PriceMetrics)) (st : SinkState) :
    (goPrice ts entries st).1.token_prices = goPriceTable ts entries st.token_prices := by
  induction entries generalizing st with
  | nil => rfl
  | cons hd rest ih =>
      obtain ⟨tid, m⟩ := hd
      match hm : m.usd with
      | none => simp [goPrice, goPriceTable, hm]
      | some p => simp [goPrice, goPriceTable, hm, ih]

/-- The price loop never changes `uniswap_pools`. -/
theorem goPrice_up (ts : Int) (entries : List (String × PriceMetrics)) (st : SinkState) :
    (goPrice ts entries st).1.uniswap_pools = st.uniswap_pools := by
  induction entries generalizing st with
  | nil => rfl
  | cons hd rest ih =>
      obtain ⟨tid, m⟩ := hd
      match hm : m.usd with
      | none => simp [goPrice, hm]
      | some p => simp [goPrice, hm, ih]

/-- The pool loop's effect on `uniswap_pools` is `goPoolsTable`. -/
theorem goPools_up (chOk : Bool) (ts : Int) (ps : List Pool) (st : SinkState) :
    (goPools chOk ts ps st).uniswap_pools = goPoolsTable ts ps st.uniswap_pools := by
  induction ps generalizing st with
  | nil => rfl
  | cons p rest ih =>
      rw [goPools, goPoolsTable, ih, storeTs_up]

/-- The pool loop never changes `token_prices`. -/
theorem goPools_tp (chOk : Bool) (ts : Int) (ps : List Pool) (st : SinkState) :
    (goPools chOk ts ps st).token_prices = st.token_prices := by
  induction ps generalizing st with
  | nil => rfl
  | cons p rest ih =>
      rw [goPools, ih, storeTs_tp]

/-- The TVL handler never changes `token_prices`. -/
theorem processTvl_tp (chOk : Bool) (proto : String) (ts : Int) (v : TvlPayload)
    (st : SinkState) :
    (processTvlData chOk proto ts v st).token_prices = st.token_prices := by
  unfold processTvlData
  exact storeTs_tp ..

/-- The TVL handler never changes `uniswap_pools`. -/
theorem processTvl_up (chOk : Bool) (proto : String) (ts : Int) (v : TvlPayload)
    (st : SinkState) :
    (processTvlData chOk proto ts v st).uniswap_pools = st.uniswap_pools := by
  unfold processTvlData
  exact storeTs_up ..

/-- Dispatching one message transforms `token_prices` by `relTP`. -/
theorem runHandler_tp (c : Conn) (st : SinkState) (e : Envelope) :
    (runHandler c st e).1.token_prices = relTP c e st.token_prices := by
  obtain ⟨topic, ts, payload⟩ := e
  unfold runHandler relTP
  by_cases h1 : topic = "subgraph_data"
  · subst h1
    simp only [if_pos rfl, if_neg (by decide : ¬("subgraph_data" = "price_data"))]
    cases payload with
    | subgraph proto pools =>
        simp only [processSubgraphData]
        by_cases hp : proto = "uniswap_v3"
        · simp only [if_pos hp]
          cases pools with
          | none => rfl
          | some ps =>
              simp only [processUniswapData]
              by_cases hpg : c.pgOk
              · simp [hpg, goPools_tp]
              · simp [hpg]
        · simp [if_neg hp]
    | price entries => rfl
    | tvl proto v => rfl
  · by_cases h2 : topic = "price_data"
    · subst h2
      simp only [if_neg h1, if_pos rfl]
      cases payload with
      | subgraph proto pools => rfl
      | price entries =>
          simp only [processPriceData]
          by_cases hpg : c.pgOk
          · simp [hpg, goPrice_tp]
          · simp [hpg]
      | tvl proto v => rfl
    · by_cases h3 : topic = "tvl_data"
      · subst h3
        simp only [if_neg h1, if_neg h2, if_pos rfl]
        cases payload with
        | subgraph proto pools => rfl
        | price entries => rfl
        | tvl proto v => simp [processTvl_tp]
      · simp [if_neg h1, if_neg h2, if_neg h3]

/-- Dispatching one message transforms `uniswap_pools` by `relUP`. -/
theorem runHandler_up (c : Conn) (st : SinkState) (e : Envelope) :
    (runHandler c st e).1.uniswap_pools = relUP c e st.uniswap_pools := by
  obtain ⟨topic, ts, payload⟩ := e
  unfold runHandler relUP
  by_cases h1 : topic = "subgraph_data"
  · subst h1
    simp only [if_pos rfl]
    cases payload with
    | subgraph proto pools =>
        simp only [processSubgraphData]
        by_cases hp : proto = "uniswap_v3"
        · simp only [if_pos hp]
          cases pools with
          | none => rfl
          | some ps =>
              simp only [processUniswapData]
              by_cases hpg : c.pgOk
              · simp [hpg, goPools_up]
              · simp [hpg]
        · simp [if_neg hp]
    | price entries => rfl
    | tvl proto v => rfl
  · by_cases h2 : topic = "price_data"
    · subst h2
      simp only [if_neg h1, if_pos rfl]
      cases payload with
      | subgraph proto pools => rfl
      | price entries =>
          simp only [processPriceData]
          by_cases hpg : c.pgOk
          · simp [hpg, goPrice_up]
          · simp [hpg]
      | tvl proto v => rfl
    · by_cases h3 : topic = "tvl_data"
      · subst h3
        simp only [if_neg h1, if_neg h2, if_pos rfl]
        cases payload with
        | subgraph proto pools => rfl
        | price entries => rfl
        | tvl proto v => simp [processTvl_up]
      · simp [if_neg h1, if_neg h2, if_neg h3]

/-- One dispatch-loop iteration transforms `token_prices` by `relTP`
(success and error outcomes alike keep the handler's writes). -/
theorem dispatchStep_tp (c : Conn) (st : ProcState) (e : Envelope) :
    (dispatchStep c st e).sinks.token_prices = relTP c e st.sinks.token_prices := by
  have h := runHandler_tp c st.sinks e
  cases hr : (runHandler c st.sinks e).2 <;> simp only [dispatchStep, hr] <;> exact h

/-- One dispatch-loop iteration transforms `uniswap_pools` by `relUP`. -/
theorem dispatchStep_up (c : Conn) (st : ProcState) (e : Envelope) :
    (dispatchStep c st e).sinks.uniswap_pools = relUP c e st.sinks.uniswap_pools := by
  have h := runHandler_up c st.sinks e
  cases hr : (runHandler c st.sinks e).2 <;> simp only [dispatchStep, hr] <;> exact h

/-- `relTP` is idempotent when the payload's entity keys are distinct. -/
theorem relTP_idem (c : Conn) (e : Envelope) (t : TPTable)
    (h : payloadKeysNodup e.payload) :
    relTP c e (relTP c e t) = relTP c e t := by
  obtain ⟨topic, ts, payload⟩ := e
  unfold relTP
  by_cases h1 : topic = "price_data"
  · simp only [if_pos h1]
    cases payload with
    | subgraph proto pools => rfl
    | tvl proto v => rfl
    | price entries =>
        by_cases hpg : c.pgOk
        · simp only [if_pos hpg]
          exact goPriceTable_idem ts entries t h
        · simp [hpg]
  · simp [if_neg h1]

/-- `relUP` is idempotent when the payload's entity keys are distinct. -/
theorem relUP_idem (c : Conn) (e : Envelope) (t : UPTable)
    (h : payloadKeysNodup e.payload) :
    relUP c e (relUP c e t) = relUP c e t := by
  obtain ⟨topic, ts, payload⟩ := e
  unfold relUP
  by_cases h1 : topic = "subgraph_data"
  · simp only [if_pos h1]
    cases payload with
    | price entries => rfl
    | tvl proto v => rfl
    | subgraph proto pools =>
        by_cases hp : proto = "uniswap_v3"
        · simp only [if_pos hp]
          cases pools with
          | none => rfl
          | some ps =>
              by_cases hpg : c.pgOk
              · simp only [if_pos hpg]
                exact goPoolsTable_idem ts ps t h
              · simp [hpg]
        · simp [if_neg hp]
  · simp [if_neg h1]

/-- `n + 1` consecutive deliveries of the same Envelope act on `token_prices`
as a single application of `relTP`. -/
theorem deliverN_tp (c : Conn) (e : Envelope) (h : payloadKeysNodup e.payload) :
    ∀ (n : Nat) (st : ProcState),
      (deliverN c e (n + 1) st).sinks.token_prices = relTP c e st.sinks.token_prices := by
  intro n
  induction n with
  | zero =>
      intro st
      show (dispatchStep c st e).sinks.token_prices = _
      exact dispatchStep_tp c st e
  | succ k ih =>
      intro st
      show (deliverN c e (k + 1) (dispatchStep c st e)).sinks.token_prices = _
      rw [ih (dispatchStep c st e), dispatchStep_tp, relTP_idem c e _ h]

/-- `n + 1` consecutive deliveries of the same Envelope act on
`uniswap_pools` as a single application of `relUP`. -/
theorem deliverN_up (c : Conn) (e : Envelope) (h : payloadKeysNodup e.payload) :
    ∀ (n : Nat) (st : ProcState),
      (deliverN c e (n + 1) st).sinks.uniswap_pools = relUP c e st.sinks.uniswap_pools := by
  intro n
  induction n with
  | zero =>
      intro st
      show (dispatchStep c st e).sinks.uniswap_pools = _
      exact dispatchStep_up c st e
  | succ k ih =>
      intro st
      show (deliverN c e (k + 1) (dispatchStep c st e)).sinks.uniswap_pools = _
      rw [ih (dispatchStep c st e), dispatchStep_up, relUP_idem c e _ h]

/-! ## Claims -/

/-- Claim C1, counterexample: delivering the same well-formed `tvl_data`
Envelope twice does not leave the sinks in the state of a single delivery —
the time-series sink accumulates one appended `protocol_metrics` row per
delivery, because the ClickHouse insert is an unconditional append with no
key-based de-duplication in the handler. -/
theorem C1_counterexample :
    (deliverN cBoth sampleTvlMsg 2 initState).sinks ≠
      (deliverN cBoth sampleTvlMsg 1 initState).sinks := by
  decide

/-- Claim C1 (amended): the handlers are idempotent on the Relational Sink
only.  For every Envelope whose payload has pairwise-distinct entity keys
(always the case for the JSON-object price payload and for distinct subgraph
pools) and every N >= 1, delivering the Envelope N times leaves the
`token_prices` and `uniswap_pools` tables in the same state as delivering it
once; the Time-Series Sink instead receives one appended row per delivery. -/
theorem C1_relational_sink_idempotent (c : Conn) (e : Envelope) (st : ProcState)
    (n : Nat) (hn : 1 ≤ n) (hk : payloadKeysNodup e.payload) :
    (deliverN c e n st).sinks.token_prices = (deliverN c e 1 st).sinks.token_prices ∧
    (deliverN c e n st).sinks.uniswap_pools = (deliverN c e 1 st).sinks.uniswap_pools := by
  obtain ⟨k, rfl⟩ : ∃ k, n = k + 1 := ⟨n - 1, (Nat.succ_pred_eq_of_pos hn).symm⟩
  constructor
  · rw [deliverN_tp c e hk k st, deliverN_tp c e hk 0 st]
  · rw [deliverN_up c e hk k st, deliverN_up c e hk 0 st]

/-- Witness for C1: three deliveries of a concrete two-token price Envelope
leave the relational tables as one delivery does. -/
theorem C1_witness :
    1 ≤ 3 ∧ payloadKeysNodup samplePriceMsg.payload ∧
      ((deliverN cBoth samplePriceMsg 3 initState).sinks.token_prices =
          (deliverN cBoth samplePriceMsg 1 initState).sinks.token_prices ∧
        (deliverN cBoth samplePriceMsg 3 initState).sinks.uniswap_pools =
          (deliverN cBoth samplePriceMsg 1 initState).sinks.uniswap_pools) :=
  ⟨by decide, by decide,
    C1_relational_sink_idempotent cBoth samplePriceMsg initState 3 (by decide) (by decide)⟩

/-- Claim C2, counterexample: with the relational sink unreachable, the
dispatch loop does not pause.  A `price_data` message fails with
`SinkUnavailableError`, yet the next message (`tvl_data`) is still dispatched
and counted as processed — there is no DEGRADED state and no halt. -/
theorem C2_counterexample :
    (runLoop cPgDown initState [samplePriceMsg, sampleTvlMsg]).processedMessages =
        [("tvl_data", 1)] ∧
      (runLoop cPgDown initState [samplePriceMsg, sampleTvlMsg]).processingErrors =
        [("price_data", 1)] := by
  decide

/-- Claim C2 (amended): a sink-write failure raises inside the handler, the
dispatch loop's `except` branch catches it, increments `PROCESSING_ERRORS`
for the topic, keeps whatever the handler wrote before raising, and continues
with the remaining messages; processing never halts and no DEGRADED pause
exists. -/
theorem C2_sink_error_caught_loop_continues (c : Conn) (st : ProcState) (m : Envelope)
    (ms : List Envelope) (err : HErr) (h : (runHandler c st.sinks m).2 = some err) :
    runLoop c st (m :: ms) =
      runLoop c
        { sinks := (runHandler c st.sinks m).1,
          processedMessages := st.processedMessages,
          processingErrors := bump st.processingErrors m.topic } ms := by
  show runLoop c (dispatchStep c st m) ms = _
  simp only [dispatchStep, h]

/-- Witness for C2: a concrete dispatch of a price message against an
unreachable relational sink. -/
theorem C2_witness :
    (runHandler cPgDown initState.sinks samplePriceMsg).2 = some HErr.sinkUnavailable ∧
    runLoop cPgDown initState [samplePriceMsg] =
      runLoop cPgDown
        { sinks := (runHandler cPgDown initState.sinks samplePriceMsg).1,
          processedMessages := initState.processedMessages,
          processingErrors := bump initState.processingErrors samplePriceMsg.topic } [] :=
  ⟨by decide,
    C2_sink_error_caught_loop_continues cPgDown initState samplePriceMsg []
      HErr.sinkUnavailable (by decide)⟩

/-- Claim C3, counterexample: a `price_data` payload whose token entry is
missing the `usd` field makes the handler raise KeyError — the token gets no
row — contradicting "missing fields never cause the Handler to raise". -/
theorem C3_counterexample :
    (processPriceData true 0
        [("bitcoin", { usd := none, usd_market_cap := none,
                       usd_24h_vol := none, usd_24h_change := none })]
        emptySinks).2 = some (HErr.keyError "usd") ∧
    (processPriceData true 0
        [("bitcoin", { usd := none, usd_market_cap := none,
                       usd_24h_vol := none, usd_24h_change := none })]
        emptySinks).1 = emptySinks := by
  decide

/-- Claim C3 (amended): the TVL handler maps missing `tvl`, `volume24h` and
`fees24h` fields to 0 without raising (a payload missing `fees24h` stores
fees_24h_usd = 0 while tvl and volume24h persist); the price handler maps
missing market-cap, volume and 24h-change fields to null without raising; but
a price token entry missing `usd` raises KeyError and yields no row for that
token. -/
theorem C3_missing_field_handling :
    (∀ (proto : String) (ts a b : Int) (st : SinkState),
      processTvlData true proto ts { tvl := some a, volume24h := some b, fees24h := none } st =
        { st with timeseries := st.timeseries ++
            [("protocol_metrics",
              [CHVal.time ts, CHVal.str proto, CHVal.num a, CHVal.num b, CHVal.num 0])] }) ∧
    (∀ (tid : String) (ts p : Int) (st : SinkState),
      processPriceData true ts
          [(tid, { usd := some p, usd_market_cap := none,
                   usd_24h_vol := none, usd_24h_change := none })] st =
        ({ st with token_prices := upsertTokenPrice st.token_prices (tid, ts) ⟨p, none, none, none⟩ }, none)) ∧
    (∀ (tid : String) (ts : Int) (mc vol chg : Option Int) (st : SinkState),
      processPriceData true ts
          [(tid, { usd := none, usd_market_cap := mc,
                   usd_24h_vol := vol, usd_24h_change := chg })] st =
        (st, some (HErr.keyError "usd"))) :=
  ⟨fun _ _ _ _ _ => rfl, fun _ _ _ _ => rfl, fun _ _ _ _ _ _ => rfl⟩

/-- Claim C4, counterexample: on a transient failure the CoinGecko worker
sleeps the fixed 60 seconds of the `except` branch, which is neither the
source's `60 / rate_limit` (1.2 s at rate_limit 50) nor the worker's actual
30-second success cadence — not "one nominal poll interval". -/
theorem C4_counterexample :
    (workerStep WorkerKind.price cgSource
        { requests := 0, errors := 0, published := ([] : List (KafkaMsg Unit)) }
        (FetchOutcome.fail [])).2 = 60 ∧
    (60 : ℚ) ≠ 60 / (cgSource.rate_limit : ℚ) ∧
    (60 : ℚ) ≠ successSleep WorkerKind.price cgSource := by
  refine ⟨rfl, ?_, ?_⟩ <;> norm_num [cgSource, successSleep]

/-- Claim C4 (amended): on a transient failure the worker increments its
error counter, sleeps a fixed 60 seconds regardless of the source's nominal
poll interval, and the loop continues with the next iteration. -/
theorem C4_transient_failure_fixed_sleep (k : WorkerKind) (s : DataSource)
    (st : WorkerState α) (sent : List α) (os : List (FetchOutcome α)) :
    (workerStep k s st (FetchOutcome.fail sent)).1.errors = st.errors + 1 ∧
    (workerStep k s st (FetchOutcome.fail sent)).2 = 60 ∧
    runWorker k s st (FetchOutcome.fail sent :: os) =
      runWorker k s (workerStep k s st (FetchOutcome.fail sent)).1 os :=
  ⟨rfl, rfl, rfl⟩

/-- Claim C5, counterexample: a source named "coingecko" is served by the
price worker, which sleeps a fixed 30 seconds between successful iterations —
not `60 / rate_limit` (1.2 s at the configured rate_limit of 50). -/
theorem C5_counterexample :
    workerFor cgSource.name = some WorkerKind.price ∧
    successSleep WorkerKind.price cgSource = 30 ∧
    (30 : ℚ) ≠ 60 / (cgSource.rate_limit : ℚ) := by
  refine ⟨by decide, rfl, ?_⟩
  norm_num [cgSource]

/-- Claim C5 (amended): only the subgraph worker ("the_graph") sleeps
`60 / rate_limit` seconds between successful iterations; the price worker
("coingecko") sleeps a fixed 30 s and the TVL worker ("defillama") a fixed
300 s, regardless of the source's rate_limit; moreover the checked-in source
list is empty (every source entry is commented out). -/
theorem C5_worker_sleeps (s : DataSource) :
    successSleep WorkerKind.subgraph s = 60 / (s.rate_limit : ℚ) ∧
    successSleep WorkerKind.price s = 30 ∧
    successSleep WorkerKind.tvl s = 300 ∧
    workerFor "the_graph" = some WorkerKind.subgraph ∧
    workerFor "coingecko" = some WorkerKind.price ∧
    workerFor "defillama" = some WorkerKind.tvl ∧
    loadDataSources = [] :=
  ⟨rfl, rfl, rfl, by decide, by decide, by decide, rfl⟩

/-- Every message appended by a worker run starting from a state whose
published messages all have null keys again has only null keys. -/
theorem runWorker_keys_none (k : WorkerKind) (s : DataSource)
    (st : WorkerState α) (os : List (FetchOutcome α))
    (h : (st.published.all fun m => m.key == none) = true) :
    ((runWorker k s st os).published.all fun m => m.key == none) = true := by
  induction os generalizing st with
  | nil => exact h
  | cons o rest ih =>
      apply ih
      cases o with
      | ok vals =>
          simp only [workerStep, List.all_append, h, Bool.true_and]
          simp [List.all_eq_true, publishToKafka]
      | fail sent =>
          simp only [workerStep, List.all_append, h, Bool.true_and]
          simp [List.all_eq_true, publishToKafka]

/-- Claim C6, counterexample: a successful TVL iteration publishes its message
with a null key (`kafka_producer.send(topic, value=data)` passes no key), so
published messages do not carry the entity identifier as their key. -/
theorem C6_counterexample :
    ((runWorker WorkerKind.tvl cgSource
        { requests := 0, errors := 0, published := ([] : List (KafkaMsg Int)) }
        [FetchOutcome.ok [(42 : Int)]]).published.map KafkaMsg.key) = [none] := by
  rfl

/-- Claim C6 (amended): every message an Ingestion Worker publishes carries a
null key — `_publish_to_kafka` never passes a key to `send`, so no per-entity
ordering is requested from the bus at all. -/
theorem C6_published_key_is_null (k : WorkerKind) (s : DataSource)
    (os : List (FetchOutcome α)) :
    ((runWorker k s { requests := 0, errors := 0, published := [] } os).published.all
      fun m => m.key == none) = true :=
  runWorker_keys_none k s _ os rfl

/-- Claim C7, counterexample: dispatching an Envelope whose topic has no
registered handler increments `PROCESSING_ERRORS` (the `KeyError` from the
`self.processors[message.topic]` lookup lands in the loop's `except` branch) —
it is not a silent warning-only drop. -/
theorem C7_counterexample :
    (dispatchStep cBoth initState
        { topic := "mystery_topic", timestamp := 0,
          payload := Payload.tvl "x" { tvl := none, volume24h := none, fees24h := none } }).processingErrors
      = [("mystery_topic", 1)] ∧
    [(("mystery_topic" : String), (1 : Nat))] ≠ initState.processingErrors := by
  refine ⟨by decide, by decide⟩

/-- Claim C7 (amended): an Envelope whose topic has no registered handler
does not crash the loop and leaves sink state and `PROCESSED_MESSAGES`
unchanged, but the KeyError raised by the handler lookup is caught by the
dispatch loop, which increments `PROCESSING_ERRORS` for that topic; it is not
dropped with only a logged warning. -/
theorem C7_unknown_topic_counted_as_error (c : Conn) (st : ProcState) (ts : Int)
    (p : Payload) (topic : String)
    (h1 : topic ≠ "subgraph_data") (h2 : topic ≠ "price_data") (h3 : topic ≠ "tvl_data") :
    dispatchStep c st { topic := topic, timestamp := ts, payload := p } =
      { sinks := st.sinks,
        processedMessages := st.processedMessages,
        processingErrors := bump st.processingErrors topic } := by
  simp only [dispatchStep, runHandler, if_neg h1, if_neg h2, if_neg h3]

/-- Witness for C7: a concrete unregistered topic. -/
theorem C7_witness :
    (("mystery_topic" : String) ≠ "subgraph_data" ∧
      ("mystery_topic" : String) ≠ "price_data" ∧
      ("mystery_topic" : String) ≠ "tvl_data") ∧
    dispatchStep cBoth initState
        { topic := "mystery_topic", timestamp := 0, payload := Payload.price [] } =
      { sinks := initState.sinks,
        processedMessages := initState.processedMessages,
        processingErrors := bump initState.processingErrors "mystery_topic" } :=
  ⟨⟨by decide, by decide, by decide⟩,
    C7_unknown_topic_counted_as_error cBoth initState 0 (Payload.price [])
      "mystery_topic" (by decide) (by decide) (by decide)⟩

/-- Claim C9: `_store_timeseries_data` never raises — with the time-series
sink unreachable it leaves the sink state unchanged (the exception is caught
and only printed) — and a `tvl_data` message whose only write is the failing
time-series insert is still counted as successfully processed:
`PROCESSED_MESSAGES` is incremented and `PROCESSING_ERRORS` is not. -/
theorem C9_timeseries_failure_swallowed :
    (∀ (tbl : String) (row : List CHVal) (st : SinkState),
      storeTimeseriesData false tbl row st = st) ∧
    (∀ (pgOk : Bool) (proto : String) (ts : Int) (v : TvlPayload) (st : ProcState),
      dispatchStep { pgOk := pgOk, chOk := false } st
          { topic := "tvl_data", timestamp := ts, payload := Payload.tvl proto v } =
        { sinks := st.sinks,
          processedMessages := bump st.processedMessages "tvl_data",
          processingErrors := st.processingErrors }) :=
  ⟨fun _ _ _ => rfl, fun _ _ _ _ _ => rfl⟩

/-- Claim C10: re-inserting a pool record whose key `(pool_id, timestamp)`
already exists updates only the `tvl_usd` and `volume_24h_usd` columns of the
existing row; `pair_name`, the token symbols and `fee_tier` keep their stored
values (the `ON CONFLICT ... DO UPDATE SET` clause lists only the two metric
columns). -/
theorem C10_conflict_updates_only_metrics (chOk : Bool) (ts : Int) (p : Pool)
    (st : SinkState) (o : UniswapPoolRow)
    (h : lookupTab st.uniswap_pools (p.id, ts) = some o) :
    lookupTab ((processUniswapData true chOk ts (some [p]) st).1.uniswap_pools) (p.id, ts)
      = some { o with tvl_usd := p.totalValueLockedUSD, volume_24h_usd := p.volumeUSD } := by
  have hup : (processUniswapData true chOk ts (some [p]) st).1.uniswap_pools
      = upsertUniswapPool st.uniswap_pools (p.id, ts) (poolRowOf p) := by
    show (goPools chOk ts [p] st).uniswap_pools = _
    rw [goPools_up]
    rfl
  rw [hup, lookupTab_upsertUP_update _ _ _ _ h]
  rfl

/-- A stored `uniswap_pools` row predating a redelivery, with column values
all different from the incoming pool record's. -/
def preRow : UniswapPoolRow :=
  { pair_name := "OLD/PAIR", token0_symbol := "OLD", token1_symbol := "PAIR",
    tvl_usd := 1, volume_24h_usd := 2, fee_tier := 500 }

/-- A sink state already holding `preRow` under `samplePool`'s key. -/
def preSinks : SinkState :=
  { token_prices := [], uniswap_pools := [(("0xabc", 0), preRow)], timeseries := [] }

/-- Witness for C10: a concrete re-insert against an existing row. -/
theorem C10_witness :
    lookupTab preSinks.uniswap_pools (samplePool.id, 0) = some preRow ∧
    lookupTab ((processUniswapData true true 0 (some [samplePool]) preSinks).1.uniswap_pools)
        (samplePool.id, 0)
      = some { preRow with tvl_usd := samplePool.totalValueLockedUSD,
                           volume_24h_usd := samplePool.volumeUSD } :=
  ⟨by decide, C10_conflict_updates_only_metrics true 0 samplePool preSinks preRow (by decide)⟩

end Defimon
